import Mathlib

/-!
Verification development for the go-spring configuration core
(package gs_conf and util/goutil): property-source resolution,
placeholder substitution, environment flattening, and the ordered
merge with structural-conflict detection.
-/

set_option maxHeartbeats 1000000

/-- The dollar character starting a placeholder token. -/
def dollarChar : Char := '$'

/-- The opening brace character of a placeholder token. -/
def lbraceChar : Char := Char.ofNat 123

/-- The closing brace character of a placeholder token. -/
def rbraceChar : Char := Char.ofNat 125

/-- The colon separating a placeholder key from its default value. -/
def colonChar : Char := ':'

/-- Modelled from the spec: one segment of a dotted property path —
either a map key or an array index written as a bracketed number. -/
inductive Seg where
  | key (s : String)
  | idx (n : Nat)
deriving DecidableEq, Repr

/-- Converts a digit run to a number while parsing bracketed indices. -/
def digitsToNat (cs : List Char) : Nat :=
  cs.foldl (fun n c => n * 10 + (c.toNat - 48)) 0

/-- Modelled from the spec: splits a dotted path with bracketed indices
(`http.server[0].addr`) into its segments. Fuel is the input length. -/
def parseSegs (fuel : Nat) (cur : List Char) (cs : List Char) : List Seg :=
  match fuel with
  | 0 => []
  | fuel + 1 =>
    match cs with
    | [] => if cur = [] then [] else [Seg.key (String.mk cur.reverse)]
    | c :: rest =>
      if c = '.' then
        (if cur = [] then [] else [Seg.key (String.mk cur.reverse)]) ++ parseSegs fuel [] rest
      else if c = '[' then
        let ds := rest.takeWhile Char.isDigit
        let r2 := (rest.dropWhile Char.isDigit).drop 1
        (if cur = [] then [] else [Seg.key (String.mk cur.reverse)]) ++
          (Seg.idx (digitsToNat ds) :: parseSegs fuel [] r2)
      else parseSegs fuel (c :: cur) rest

/-- Modelled from the spec: parses a dotted property path into segments. -/
def parsePath (s : String) : List Seg :=
  parseSegs (s.data.length + 1) [] s.data

/-- Modelled from the spec: two sibling segments clash structurally when one
asserts a map key and the other an array index at the same tree node. -/
def kindClash : Seg → Seg → Bool
  | Seg.key _, Seg.idx _ => true
  | Seg.idx _, Seg.key _ => true
  | _, _ => false

/-- Modelled from the spec: two leaf paths are structurally incompatible when
one is a strict prefix-ancestor of the other (leaf vs container) or when they
first diverge at a map-key/array-index mismatch. Identical paths do not clash
(the later write overwrites the scalar). -/
def pathsConflict : List Seg → List Seg → Bool
  | [], [] => false
  | [], _ :: _ => true
  | _ :: _, [] => true
  | a :: p, b :: q => if a = b then pathsConflict p q else kindClash a b

/-- A flat property set: ordered association list from dotted path to value. -/
abbrev PropSet := List (String × String)

/-- The list of environment variables, in definition order. -/
abbrev EnvList := List (String × String)

/-- The decoded content of the file system: path to decoded flat layer. -/
abbrev FileSystem := String → Option PropSet

/-- Looks a dotted path up in a flat property set. -/
def getVal (ps : PropSet) (k : String) : Option String :=
  (ps.find? (fun kv => kv.fst = k)).map (fun kv => kv.snd)

/-- The lookup function a property set induces for placeholder resolution. -/
def lookupFn (ps : PropSet) : String → Option String :=
  fun k => getVal ps k

/-- Modelled from the spec: writes one scalar into the property set. A path
already present is overwritten in place; a path structurally incompatible with
an existing one fails with "property conflict at path" naming the incoming
path; otherwise the pair is appended. -/
def setValue (ps : PropSet) (k v : String) : Except String PropSet :=
  if ps.any (fun kv => pathsConflict (parsePath kv.fst) (parsePath k)) then
    .error ("property conflict at path " ++ k)
  else if ps.any (fun kv => kv.fst = k) then
    .ok (ps.map (fun kv => if kv.fst = k then (k, v) else kv))
  else
    .ok (ps ++ [(k, v)])

/-- Modelled from the spec: folds one layer into the accumulating target,
leaf by leaf, in the layer's order. -/
def foldLayer (target : PropSet) (layer : PropSet) : Except String PropSet :=
  layer.foldlM (fun t kv => setValue t kv.fst kv.snd) target

/-- Modelled from the spec: folds a list of layers in order. -/
def foldLayers (target : PropSet) (layers : List PropSet) : Except String PropSet :=
  layers.foldlM (fun t l => foldLayer t l) target

/-- The merge invariant: no two paths in the set are structurally
incompatible — in particular no path is both a leaf and an ancestor. -/
def wellFormed (ps : PropSet) : Prop :=
  ps.Pairwise (fun a b => pathsConflict (parsePath a.fst) (parsePath b.fst) = false)

/-- Whether a character list contains the two-character placeholder opener. -/
def hasPH : List Char → Bool
  | [] => false
  | [_] => false
  | a :: b :: rest => (a = dollarChar && b = lbraceChar) || hasPH (b :: rest)

/-- Modelled from the spec: the placeholder scanner over a character list.
Copies plain characters; at a placeholder it reads the key (and optional
`:default`), substitutes the looked-up value back into the stream so that
substituted text is itself resolved, and fails with "property k not exist"
when the key is absent and no default is given. Fuel bounds the recursion,
guarding against self-reference cycles. -/
def resolveFuel (lookup : String → Option String) : Nat → List Char → Except String (List Char)
  | 0, _ => .error "resolve depth exceeded"
  | _ + 1, [] => .ok []
  | fuel + 1, c :: rest =>
    if c = dollarChar ∧ rest.head? = some lbraceChar then
      let body := rest.tail
      let inner := body.takeWhile (fun x => !(x == rbraceChar))
      match body.dropWhile (fun x => !(x == rbraceChar)) with
      | [] => .error "missing closing brace in placeholder"
      | _ :: restAfter =>
        let keyStr := String.mk (inner.takeWhile (fun x => !(x == colonChar)))
        match lookup keyStr with
        | some v => resolveFuel lookup fuel (v.data ++ restAfter)
        | none =>
          if inner.any (fun x => x == colonChar) then
            match resolveFuel lookup fuel restAfter with
            | .ok t => .ok ((inner.dropWhile (fun x => !(x == colonChar))).tail ++ t)
            | .error e => .error e
          else .error ("property " ++ keyStr ++ " not exist")
    else
      match resolveFuel lookup fuel rest with
      | .ok t => .ok (c :: t)
      | .error e => .error e

/-- Modelled from the spec: resolves every `$\x7bkey\x7d` and
`$\x7bkey:default\x7d` token in a string against a lookup function. A failure
is wrapped in the chain `resolve string "<original>" error << <inner>`. -/
def resolveString (lookup : String → Option String) (s : String) : Except String String :=
  match resolveFuel lookup (s.data.length + 1) s.data with
  | .ok l => .ok (String.mk l)
  | .error e => .error ("resolve string \"" ++ s ++ "\" error << " ++ e)

/-- The literal placeholder string `$\x7bk\x7d` for a key. -/
def placeholderOf (k : String) : String :=
  String.mk (dollarChar :: lbraceChar :: (k.data ++ [rbraceChar]))

/-- Whether a character may appear in a plain placeholder key: neither the
closing brace nor the default-value separator. -/
def okKeyChar (c : Char) : Bool :=
  !(c == rbraceChar) && !(c == colonChar)

/-- Modelled from the spec: lower-cases one flattened environment name and
turns each run of consecutive underscores into one dotted-path separator;
hyphens stay inside their segment. The boolean records whether the previous
character was an underscore. -/
def collapseUnders : Bool → List Char → List Char
  | _, [] => []
  | prevU, c :: rest =>
    if c = '_' then
      if prevU then collapseUnders true rest
      else '.' :: collapseUnders true rest
    else c :: collapseUnders false rest

/-- Modelled from the spec: maps an environment variable name under the `GS_`
prefix to its dotted property path — strip the prefix, lower-case the rest,
underscore runs become separators. Names without the prefix are ignored. -/
def envKeyToPath (k : String) : Option String :=
  match k.data with
  | 'G' :: 'S' :: '_' :: rest => some (String.mk (collapseUnders false (rest.map Char.toLower)))
  | _ => none

/-- Modelled from the spec: the environment layer — every `GS_`-prefixed
variable flattened to its dotted path and folded, in order, into one fresh
property set, so an environment that asserts a path as both leaf and
container fails here. -/
def buildEnvLayer (env : EnvList) : Except String PropSet :=
  foldLayer [] (env.filterMap (fun kv => (envKeyToPath kv.fst).map (fun p => (p, kv.snd))))

/-- Splits a comma-separated profile list. -/
def splitCommaAux (cur : List Char) : List Char → List String
  | [] => [String.mk cur.reverse]
  | c :: rest =>
    if c = ',' then String.mk cur.reverse :: splitCommaAux [] rest
    else splitCommaAux (c :: cur) rest

/-- Splits a comma-separated string into its parts. -/
def splitComma (s : String) : List String :=
  splitCommaAux [] s.data

/-- The Local config-type tag. -/
def ConfigTypeLocal : String := "Local"

/-- The Remote config-type tag. -/
def ConfigTypeRemote : String := "Remote"

/-- Modelled from the spec: the locator's working state — config type,
application name, and the two registries of explicitly added sources. -/
structure PropertySources where
  configType : String
  appName : String
  extraDirs : List String
  extraFiles : List String
deriving DecidableEq, Repr

/-- Modelled from the spec: constructor with empty registries. -/
def NewPropertySources (ct name : String) : PropertySources :=
  ⟨ct, name, [], []⟩

/-- Modelled from the spec: clears both registries. -/
def PropertySources.Reset (ps : PropertySources) : PropertySources :=
  { ps with extraDirs := [], extraFiles := [] }

/-- The outcome of the file-system stat call used to validate a path. -/
inductive StatResult where
  | notFound
  | fileInfo (isDir : Bool)
  | statErr (msg : String)
deriving DecidableEq, Repr

/-- Modelled from the spec: registers an extra directory. A missing path is
not an error; an existing non-directory aborts with "should be a directory";
any other stat failure aborts surfacing that error. -/
def PropertySources.AddDir (ps : PropertySources) (dir : String) (st : StatResult) :
    Except String PropertySources :=
  match st with
  | .statErr m => .error m
  | .fileInfo isDir =>
    if isDir then .ok { ps with extraDirs := ps.extraDirs ++ [dir] }
    else .error "should be a directory"
  | .notFound => .ok { ps with extraDirs := ps.extraDirs ++ [dir] }

/-- Modelled from the spec: registers an extra file. A missing path is not an
error; an existing directory aborts with "should be a file"; any other stat
failure aborts surfacing that error. -/
def PropertySources.AddFile (ps : PropertySources) (file : String) (st : StatResult) :
    Except String PropertySources :=
  match st with
  | .statErr m => .error m
  | .fileInfo isDir =>
    if isDir then .error "should be a file"
    else .ok { ps with extraFiles := ps.extraFiles ++ [file] }
  | .notFound => .ok { ps with extraFiles := ps.extraFiles ++ [file] }

/-- Modelled from the spec: computes the search directory — `./conf` for
Local, `./conf/remote` for Remote, replaced by the placeholder-resolved
override key when that key is present in the layer; any other config type
fails with "unknown config type". -/
def PropertySources.getDefaultDir (ps : PropertySources) (layer : PropSet) :
    Except String String :=
  if ps.configType = ConfigTypeLocal then
    match getVal layer "spring.app.config-local.dir" with
    | none => .ok "./conf"
    | some v => resolveString (lookupFn layer) v
  else if ps.configType = ConfigTypeRemote then
    match getVal layer "spring.app.config-remote.dir" with
    | none => .ok "./conf/remote"
    | some v => resolveString (lookupFn layer) v
  else .error ("unknown config type: " ++ ps.configType)

/-- The supported file extensions in fixed format-precedence order. -/
def exts : List String :=
  [".properties", ".yaml", ".yml", ".toml", ".tml", ".json"]

/-- Modelled from the spec: the candidate file list — the six extensions for
the base name, then the six for each profile-qualified name in profile
order, all rooted at one directory. -/
def candidateFiles (dir name : String) (profiles : List String) : List String :=
  (name :: profiles.map (fun p => name ++ ("-" ++ p))).foldr
    (fun nm acc => exts.map (fun e => dir ++ ("/" ++ (nm ++ e))) ++ acc) []

/-- Modelled from the spec: builds the candidate file list for a directory,
reading the active profiles from the layer's `spring.profiles.active` value
after placeholder resolution. -/
def PropertySources.getFiles (ps : PropertySources) (dir : String) (layer : PropSet) :
    Except String (List String) :=
  match getVal layer "spring.profiles.active" with
  | none => .ok (candidateFiles dir ps.appName [])
  | some v =>
    match resolveString (lookupFn layer) v with
    | .error e => .error e
    | .ok r => .ok (candidateFiles dir ps.appName (splitComma r))

/-- Modelled from the spec: the lookup used while resolving a decoded file's
string leaves — the file's own tree first, then the given property layer. -/
def unionLookup (propLayer fileLayer : PropSet) : String → Option String :=
  fun k =>
    match getVal fileLayer k with
    | some v => some v
    | none => getVal propLayer k

/-- Modelled from the spec: passes every string leaf of a decoded file layer
through the placeholder resolver. -/
def resolveLayerWith (propLayer fileLayer : PropSet) : Except String PropSet :=
  fileLayer.mapM (fun kv =>
    match resolveString (unionLookup propLayer fileLayer) kv.snd with
    | .ok r => .ok (kv.fst, r)
    | .error e => .error e)

/-- Modelled from the spec: discovers and loads one config type's default
candidate set — default directory (with override), candidate list filtered
by what exists, each decoded layer resolved against the environment layer. -/
def loadConfig (ct : String) (layer : PropSet) (fs : FileSystem) :
    Except String (List PropSet) :=
  let ps := NewPropertySources ct "app"
  match ps.getDefaultDir layer with
  | .error e => .error e
  | .ok dir =>
    match ps.getFiles dir layer with
    | .error e => .error e
    | .ok files => (files.filterMap fs).mapM (fun l => resolveLayerWith layer l)

/-- Modelled from the spec: one resolution run. The environment layer is
built (conflicts inside it fail here), folded onto the pre-existing system
configuration, the local — and for the application config also the remote —
file layers are discovered and folded in candidate order, and the
environment layer is re-asserted on top so environment values win direct
key collisions while structural conflicts still fail. -/
def refreshWith (withRemote : Bool) (sysConf : PropSet) (env : EnvList) (fs : FileSystem) :
    Except String PropSet := do
  let envLayer ← buildEnvLayer env
  let t1 ← foldLayer sysConf envLayer
  let localLayers ← loadConfig ConfigTypeLocal envLayer fs
  let t2 ← foldLayers t1 localLayers
  let t3 ← (if withRemote then do
      let remoteLayers ← loadConfig ConfigTypeRemote envLayer fs
      foldLayers t2 remoteLayers
    else pure t2)
  foldLayer t3 envLayer

/-- Modelled from the spec: `NewAppConfig().Refresh()` — consults the local
and the remote source types. The ambient process state (system configuration
singleton, environment, file system) is passed explicitly. -/
def AppConfigRefresh (sysConf : PropSet) (env : EnvList) (fs : FileSystem) :
    Except String PropSet :=
  refreshWith true sysConf env fs

/-- Modelled from the spec: `NewBootConfig().Refresh()` — consults the local
source type only. -/
def BootConfigRefresh (sysConf : PropSet) (env : EnvList) (fs : FileSystem) :
    Except String PropSet :=
  refreshWith false sysConf env fs

/-- The observable outcome of the function handed to `goutil.GoValue`:
either a normal return of a value and an error, or a panic with a payload. -/
inductive FnOutcome (T : Type) where
  | ret (val : T) (err : Option String)
  | panics (payload : String)

/-- The fields of `goutil.ValueStatus` once the goroutine has finished. -/
structure ValueStatus (T : Type) where
  val : T
  err : Option String

/-- `ValueStatus.Wait`: returns the stored value and error after completion. -/
def ValueStatus.Wait {T : Type} (s : ValueStatus T) : T × Option String :=
  (s.val, s.err)

/-- The result of running the `GoValue` goroutine body: the final status and
the payload passed to the `OnPanic` handler, when it was invoked. -/
structure GoValueEffect (T : Type) where
  status : ValueStatus T
  onPanicPayload : Option String

/-- `goutil.GoValue`'s goroutine body: on normal return the value and error
of `f` are stored; on panic the recover handler runs `OnPanic` (when set)
with the payload and stores the error "panic occurred", the value keeping
its zero value since the assignment never executed. -/
def GoValue {T : Type} (zeroT : T) (onPanicSet : Bool) (f : FnOutcome T) : GoValueEffect T :=
  match f with
  | .ret v e => ⟨⟨v, e⟩, none⟩
  | .panics r => ⟨⟨zeroT, some "panic occurred"⟩, if onPanicSet then some r else none⟩

/-- Concrete file system for the boot-config end-to-end run: one properties
file at the override directory defining the application name and address. -/
def fsC5 : FileSystem := fun p =>
  if p = "./testdata/conf/app.properties" then
    some [("spring.app.name", "test"), ("http.server.addr", "0.0.0.0:8080")]
  else none

/-- The empty file system: no candidate file exists. -/
def fsEmpty : FileSystem := fun _ => none

theorem strMkData (s : String) : String.mk s.data = s := by
  cases s
  rfl

theorem strDataAppend (a b : String) : (a ++ b).data = a.data ++ b.data := rfl

/-- A string without the placeholder opener resolves to itself at any fuel
above its length. -/
theorem resolveFuel_noPH (lookup : String → Option String) :
    ∀ (cs : List Char) (fuel : Nat), hasPH cs = false → cs.length < fuel →
      resolveFuel lookup fuel cs = .ok cs := by
  intro cs
  induction cs with
  | nil =>
    intro fuel _ hlen
    match fuel, hlen with
    | fuel + 1, _ => rfl
  | cons c rest ih =>
    intro fuel hph hlen
    match fuel, hlen with
    | fuel + 1, hlen =>
      have hcond : ¬(c = dollarChar ∧ rest.head? = some lbraceChar) := by
        cases rest with
        | nil => simp
        | cons b rest' =>
          intro hcc
          rw [hasPH] at hph
          simp [hcc.1, List.head?] at hph
          simp [hph.1] at hcc
      have hrest : hasPH rest = false := by
        cases rest with
        | nil => rfl
        | cons b rest' =>
          rw [hasPH] at hph
          exact (Bool.or_eq_false_iff.mp hph).2
      rw [resolveFuel, if_neg hcond, ih fuel hrest (Nat.lt_of_succ_lt_succ hlen)]

/-- Scanning a key made of plain characters stops exactly at the closing
brace that follows it. -/
theorem takeDropKey (suf : List Char) :
    ∀ l : List Char, l.all okKeyChar = true →
      (l ++ rbraceChar :: suf).takeWhile (fun x => !(x == rbraceChar)) = l ∧
      (l ++ rbraceChar :: suf).dropWhile (fun x => !(x == rbraceChar)) = rbraceChar :: suf := by
  intro l
  induction l with
  | nil =>
    intro _
    constructor
    · simp [List.takeWhile]
    · simp [List.dropWhile]
  | cons c cs ih =>
    intro h
    rw [List.all_cons, Bool.and_eq_true] at h
    have hc : (c == rbraceChar) = false := by
      have := h.1
      rw [okKeyChar, Bool.and_eq_true] at this
      simpa using this.1
    have hrec := ih h.2
    constructor
    · rw [List.cons_append, List.takeWhile_cons]
      simp [hc, hrec.1]
    · rw [List.cons_append, List.dropWhile_cons]
      simp [hc, hrec.2]

/-- A key made of plain characters contains no default-value separator. -/
theorem keyNoColon :
    ∀ l : List Char, l.all okKeyChar = true →
      l.takeWhile (fun x => !(x == colonChar)) = l ∧
      l.any (fun x => x == colonChar) = false := by
  intro l
  induction l with
  | nil => intro _; constructor <;> simp [List.takeWhile]
  | cons c cs ih =>
    intro h
    rw [List.all_cons, Bool.and_eq_true] at h
    have hc : (c == colonChar) = false := by
      have := h.1
      rw [okKeyChar, Bool.and_eq_true] at this
      simpa using this.2
    have hrec := ih h.2
    constructor
    · rw [List.takeWhile_cons]
      simp [hc, hrec.1]
    · rw [List.any_cons]
      simp [hc, hrec.2]

/-- Scanning any placeholder-free prefix, a placeholder whose key the lookup
does not know and that carries no default fails with "property k not exist",
whatever follows it. -/
theorem resolveFuel_missing (lookup : String → Option String) (k : String) (suf : List Char)
    (hk : k.data.all okKeyChar = true) (hlk : lookup k = none) :
    ∀ (pre : List Char) (fuel : Nat), hasPH pre = false → pre.length < fuel →
      resolveFuel lookup fuel (pre ++ dollarChar :: lbraceChar :: (k.data ++ rbraceChar :: suf)) =
        .error ("property " ++ k ++ " not exist") := by
  intro pre
  induction pre with
  | nil =>
    intro fuel _ hlen
    match fuel, hlen with
    | fuel + 1, _ =>
      rw [List.nil_append, resolveFuel,
        if_pos (⟨rfl, rfl⟩ : dollarChar = dollarChar ∧
          (lbraceChar :: (k.data ++ rbraceChar :: suf)).head? = some lbraceChar)]
      have htd := takeDropKey suf k.data hk
      have hnc := keyNoColon k.data hk
      simp only [List.tail_cons, htd.1, htd.2, hnc.1, hnc.2, strMkData, hlk]
      simp
  | cons c pre' ih =>
    intro fuel hph hlen
    match fuel, hlen with
    | fuel + 1, hlen =>
      have hcond : ¬(c = dollarChar ∧
          (pre' ++ dollarChar :: lbraceChar :: (k.data ++ rbraceChar :: suf)).head? =
            some lbraceChar) := by
        cases pre' with
        | nil =>
          intro hcc
          have : dollarChar = lbraceChar := by simpa using hcc.2
          exact absurd this (by decide)
        | cons b rest' =>
          intro hcc
          rw [hasPH] at hph
          simp [hcc.1, List.head?] at hph
          simp [hph.1] at hcc
      have hrest : hasPH pre' = false := by
        cases pre' with
        | nil => rfl
        | cons b rest' =>
          rw [hasPH] at hph
          exact (Bool.or_eq_false_iff.mp hph).2
      rw [List.cons_append, resolveFuel, if_neg hcond,
        ih fuel hrest (Nat.lt_of_succ_lt_succ hlen)]

/-- A string without the placeholder opener resolves to itself. -/
theorem resolveString_noPH (lookup : String → Option String) (s : String)
    (h : hasPH s.data = false) : resolveString lookup s = .ok s := by
  rw [resolveString, resolveFuel_noPH lookup s.data (s.data.length + 1) h (Nat.lt_succ_self _)]

/-- Bind on `Except` reaching a success passed through a success. -/
theorem except_bind_ok {α β : Type} {a : Except String α} {f : α → Except String β} {b : β}
    (h : (a >>= f) = .ok b) : ∃ v, a = .ok v ∧ f v = .ok b := by
  cases a with
  | error e => simp [Bind.bind, Except.bind] at h
  | ok v => exact ⟨v, rfl, by simpa [Bind.bind, Except.bind] using h⟩

/-- A successful write preserves the merge invariant: the guard in `setValue`
rejects exactly the writes that would make a path both leaf and ancestor or
mix map and array roles at one node. -/
theorem setValue_wf {ps : PropSet} {k v : String} {ps' : PropSet}
    (hwf : wellFormed ps) (h : setValue ps k v = .ok ps') : wellFormed ps' := by
  rw [setValue] at h
  by_cases hc : ps.any (fun kv => pathsConflict (parsePath kv.fst) (parsePath k)) = true
  · rw [if_pos hc] at h
    exact absurd h (by simp)
  · rw [if_neg hc] at h
    have hall : ∀ kv ∈ ps, pathsConflict (parsePath kv.fst) (parsePath k) = false := by
      intro kv hkv
      by_contra hne
      exact hc (List.any_eq_true.mpr ⟨kv, hkv, by simpa using hne⟩)
    by_cases he : ps.any (fun kv => kv.fst = k) = true
    · rw [if_pos he] at h
      have hps' : ps' = ps.map (fun kv => if kv.fst = k then (k, v) else kv) := by
        cases h
        rfl
      subst hps'
      rw [wellFormed, List.pairwise_map]
      refine hwf.imp ?_
      intro a b hab
      have hfst : ∀ kv : String × String,
          ((if kv.fst = k then (k, v) else kv) : String × String).fst = kv.fst := by
        intro kv
        by_cases hkv : kv.fst = k
        · simp [hkv]
        · simp [hkv]
      rw [hfst a, hfst b]
      exact hab
    · rw [if_neg he] at h
      have hps' : ps' = ps ++ [(k, v)] := by
        cases h
        rfl
      subst hps'
      rw [wellFormed, List.pairwise_append]
      refine ⟨hwf, List.pairwise_singleton _ _, ?_⟩
      intro a ha b hb
      rw [List.mem_singleton] at hb
      subst hb
      exact hall a ha

/-- Folding one layer preserves the merge invariant. -/
theorem foldLayer_wf :
    ∀ (layer : PropSet) (target target' : PropSet),
      wellFormed target → foldLayer target layer = .ok target' → wellFormed target' := by
  intro layer
  induction layer with
  | nil =>
    intro t t' hwf h
    rw [foldLayer, List.foldlM] at h
    cases h
    exact hwf
  | cons kv rest ih =>
    intro t t' hwf h
    rw [foldLayer, List.foldlM] at h
    obtain ⟨mid, hmid, hrest⟩ := except_bind_ok h
    exact ih mid t' (setValue_wf hwf hmid) hrest

/-- Folding a list of layers preserves the merge invariant. -/
theorem foldLayers_wf :
    ∀ (layers : List PropSet) (target target' : PropSet),
      wellFormed target → foldLayers target layers = .ok target' → wellFormed target' := by
  intro layers
  induction layers with
  | nil =>
    intro t t' hwf h
    rw [foldLayers, List.foldlM] at h
    cases h
    exact hwf
  | cons l rest ih =>
    intro t t' hwf h
    rw [foldLayers, List.foldlM] at h
    obtain ⟨mid, hmid, hrest⟩ := except_bind_ok h
    exact ih mid t' (foldLayer_wf l t mid hwf hmid) hrest

/-- A whole resolution run preserves the merge invariant: whatever layers it
discovers, the target only ever changes through guarded folds. -/
theorem refreshWith_wf {withRemote : Bool} {sysConf : PropSet} {env : EnvList}
    {fs : FileSystem} {out : PropSet}
    (hwf : wellFormed sysConf) (h : refreshWith withRemote sysConf env fs = .ok out) :
    wellFormed out := by
  rw [refreshWith] at h
  obtain ⟨envLayer, henv, h⟩ := except_bind_ok h
  obtain ⟨t1, h1, h⟩ := except_bind_ok h
  obtain ⟨localLayers, h2, h⟩ := except_bind_ok h
  obtain ⟨t2, h3, h⟩ := except_bind_ok h
  obtain ⟨t3, h4, h5⟩ := except_bind_ok h
  have hwf1 := foldLayer_wf envLayer sysConf t1 hwf h1
  have hwf2 := foldLayers_wf localLayers t1 t2 hwf1 h3
  have hwf3 : wellFormed t3 := by
    cases withRemote with
    | false =>
      rw [if_neg (by simp)] at h4
      have : t2 = t3 := by
        cases h4
        rfl
      rw [← this]
      exact hwf2
    | true =>
      rw [if_pos rfl] at h4
      obtain ⟨remoteLayers, h6, h7⟩ := except_bind_ok h4
      exact foldLayers_wf remoteLayers t2 t3 hwf2 h7
  exact foldLayer_wf envLayer t3 out hwf3 h5

/-- C1: with the environment defining GS_A=a and GS_A_B=a.b — path `a` as
both scalar leaf and container ancestor — both the application-config and
the boot-config resolution runs fail with "property conflict at path a.b",
whatever the pre-existing system configuration and the file system hold. -/
theorem claim_C1 :
    ∀ (sysConf : PropSet) (fs : FileSystem),
      AppConfigRefresh sysConf [("GS_A", "a"), ("GS_A_B", "a.b")] fs =
        .error "property conflict at path a.b" ∧
      BootConfigRefresh sysConf [("GS_A", "a"), ("GS_A_B", "a.b")] fs =
        .error "property conflict at path a.b" :=
  fun _ _ => ⟨rfl, rfl⟩

/-- C2: resolving any string that carries a placeholder whose key the
consulted layers do not know and that has no default fails with the chain
`resolve string "<original>" error << property <key> not exist`; in
particular an environment override set to the placeholder for `a` with no
property `a` fails both Refresh runs with exactly that chain. -/
theorem claim_C2 :
    (∀ (lookup : String → Option String) (pre k suf : String),
      hasPH pre.data = false → k.data.all okKeyChar = true → lookup k = none →
      resolveString lookup (pre ++ placeholderOf k ++ suf) =
        .error ("resolve string \"" ++ (pre ++ placeholderOf k ++ suf) ++ "\" error << " ++
          ("property " ++ k ++ " not exist"))) ∧
    (∀ fs : FileSystem,
      AppConfigRefresh [] [("GS_SPRING_APP_CONFIG-LOCAL_DIR", placeholderOf "a")] fs =
        .error "resolve string \"$\x7ba\x7d\" error << property a not exist" ∧
      BootConfigRefresh [] [("GS_SPRING_APP_CONFIG-LOCAL_DIR", placeholderOf "a")] fs =
        .error "resolve string \"$\x7ba\x7d\" error << property a not exist") := by
  constructor
  · intro lookup pre k suf hpre hk hlk
    have hdata : (pre ++ placeholderOf k ++ suf).data =
        pre.data ++ dollarChar :: lbraceChar :: (k.data ++ rbraceChar :: suf.data) := by
      rw [strDataAppend, strDataAppend]
      simp [placeholderOf]
    have hlen : pre.data.length <
        (pre.data ++ dollarChar :: lbraceChar :: (k.data ++ rbraceChar :: suf.data)).length + 1 := by
      simp [List.length_append]
      omega
    have hres := resolveFuel_missing lookup k suf.data hk hlk pre.data
      ((pre.data ++ dollarChar :: lbraceChar :: (k.data ++ rbraceChar :: suf.data)).length + 1)
      hpre hlen
    rw [resolveString, hdata, hres]
  · intro fs
    exact ⟨rfl, rfl⟩

/-- C2 witness: the general statement applied at the empty prefix and
suffix, key `a`, and the empty lookup. -/
theorem claim_C2_witness :
    hasPH "".data = false ∧ "a".data.all okKeyChar = true ∧
    resolveString (fun _ => none) ("" ++ placeholderOf "a" ++ "") =
      .error ("resolve string \"" ++ ("" ++ placeholderOf "a" ++ "") ++ "\" error << " ++
        ("property " ++ "a" ++ " not exist")) :=
  ⟨rfl, rfl, claim_C2.1 (fun _ => none) "" "a" "" rfl rfl rfl⟩

/-- C3: getDefaultDir returns `./conf` for Local and `./conf/remote` for
Remote when the override key is absent, the (placeholder-resolved) override
value when the key is set, and "unknown config type" for any other tag. -/
theorem claim_C3 :
    (∀ n : String, (NewPropertySources ConfigTypeLocal n).getDefaultDir [] = .ok "./conf") ∧
    (∀ n : String,
      (NewPropertySources ConfigTypeRemote n).getDefaultDir [] = .ok "./conf/remote") ∧
    (∀ (n v : String), hasPH v.data = false →
      (NewPropertySources ConfigTypeLocal n).getDefaultDir
        [("spring.app.config-local.dir", v)] = .ok v) ∧
    (∀ (n v : String), hasPH v.data = false →
      (NewPropertySources ConfigTypeRemote n).getDefaultDir
        [("spring.app.config-remote.dir", v)] = .ok v) ∧
    (∀ (t n : String) (layer : PropSet), t ≠ ConfigTypeLocal → t ≠ ConfigTypeRemote →
      (NewPropertySources t n).getDefaultDir layer = .error ("unknown config type: " ++ t)) := by
  refine ⟨fun n => rfl, fun n => rfl, ?_, ?_, ?_⟩
  · intro n v h
    exact resolveString_noPH (lookupFn [("spring.app.config-local.dir", v)]) v h
  · intro n v h
    exact resolveString_noPH (lookupFn [("spring.app.config-remote.dir", v)]) v h
  · intro t n layer h1 h2
    simp [PropertySources.getDefaultDir, NewPropertySources, h1, h2]

/-- C3 witness: the override and unknown-type branches at concrete inputs. -/
theorem claim_C3_witness :
    hasPH "X".data = false ∧
    (NewPropertySources ConfigTypeLocal "app").getDefaultDir
      [("spring.app.config-local.dir", "X")] = .ok "X" ∧
    (NewPropertySources "invalid" "app").getDefaultDir [] =
      .error ("unknown config type: " ++ "invalid") :=
  ⟨rfl, claim_C3.2.2.1 "app" "X" rfl,
    claim_C3.2.2.2.2 "invalid" "app" [] (by decide) (by decide)⟩

/-- C4: for every base directory, with active profiles `dev,test` getFiles
returns exactly the eighteen candidates — six extensions for `app`, then for
`app-dev`, then for `app-test`, in the fixed precedence order — and with no
active profiles exactly the six base candidates. -/
theorem claim_C4 :
    ∀ d : String,
      (NewPropertySources ConfigTypeLocal "app").getFiles d
        [("spring.profiles.active", "dev,test")] =
        .ok [d ++ "/app.properties", d ++ "/app.yaml", d ++ "/app.yml",
             d ++ "/app.toml", d ++ "/app.tml", d ++ "/app.json",
             d ++ "/app-dev.properties", d ++ "/app-dev.yaml", d ++ "/app-dev.yml",
             d ++ "/app-dev.toml", d ++ "/app-dev.tml", d ++ "/app-dev.json",
             d ++ "/app-test.properties", d ++ "/app-test.yaml", d ++ "/app-test.yml",
             d ++ "/app-test.toml", d ++ "/app-test.tml", d ++ "/app-test.json"] ∧
      (NewPropertySources ConfigTypeLocal "app").getFiles d [] =
        .ok [d ++ "/app.properties", d ++ "/app.yaml", d ++ "/app.yml",
             d ++ "/app.toml", d ++ "/app.tml", d ++ "/app.json"] :=
  fun _ => ⟨rfl, rfl⟩

/-- C5: with the environment overriding the local directory to
`./testdata/conf` and the properties file there defining the application
name and server address, the boot-config run succeeds and its data is
exactly the three expected entries. -/
theorem claim_C5 :
    BootConfigRefresh [] [("GS_SPRING_APP_CONFIG-LOCAL_DIR", "./testdata/conf")] fsC5 =
      .ok [("spring.app.config-local.dir", "./testdata/conf"),
           ("spring.app.name", "test"),
           ("http.server.addr", "0.0.0.0:8080")] := rfl

/-- C6: a pre-existing `http.server[0].addr` array element and a loaded file
asserting the scalar `http.server.addr` make both resolution runs fail with
"property conflict at path http.server.addr" — priority never resolves
structural incompatibility — and any successful run keeps the invariant that
no path is simultaneously a leaf and a structural ancestor. -/
theorem claim_C6 :
    (AppConfigRefresh [("http.server[0].addr", "0.0.0.0:8080")]
        [("GS_SPRING_APP_CONFIG-LOCAL_DIR", "./testdata/conf")] fsC5 =
      .error "property conflict at path http.server.addr") ∧
    (BootConfigRefresh [("http.server[0].addr", "0.0.0.0:8080")]
        [("GS_SPRING_APP_CONFIG-LOCAL_DIR", "./testdata/conf")] fsC5 =
      .error "property conflict at path http.server.addr") ∧
    (∀ (withRemote : Bool) (sysConf : PropSet) (env : EnvList) (fs : FileSystem)
        (out : PropSet), wellFormed sysConf →
      refreshWith withRemote sysConf env fs = .ok out → wellFormed out) :=
  ⟨rfl, rfl, fun _ _ _ _ _ hwf h => refreshWith_wf hwf h⟩

/-- C6 witness: the invariant applied to a concrete successful run. -/
theorem claim_C6_witness :
    wellFormed [("a", "x")] ∧ wellFormed [("a", "x")] :=
  ⟨by simp [wellFormed], claim_C6.2.2 false [("a", "x")] [] fsEmpty [("a", "x")]
    (by simp [wellFormed]) rfl⟩

/-- C7: AddDir and AddFile accept a missing path without error, still
registering it; abort with "should be a directory" / "should be a file" when
the path exists with the wrong kind; and abort surfacing any other stat
error. -/
theorem claim_C7 :
    (∀ (ps : PropertySources) (p : String),
      ps.AddDir p .notFound = .ok { ps with extraDirs := ps.extraDirs ++ [p] }) ∧
    (∀ (ps : PropertySources) (p : String),
      ps.AddFile p .notFound = .ok { ps with extraFiles := ps.extraFiles ++ [p] }) ∧
    (∀ (ps : PropertySources) (p : String),
      ps.AddDir p (.fileInfo false) = .error "should be a directory") ∧
    (∀ (ps : PropertySources) (p : String),
      ps.AddFile p (.fileInfo true) = .error "should be a file") ∧
    (∀ (ps : PropertySources) (p m : String), ps.AddDir p (.statErr m) = .error m) ∧
    (∀ (ps : PropertySources) (p m : String), ps.AddFile p (.statErr m) = .error m) :=
  ⟨fun _ _ => rfl, fun _ _ => rfl, fun _ _ => rfl, fun _ _ => rfl,
    fun _ _ _ => rfl, fun _ _ _ => rfl⟩

/-- C8: placeholder resolution is idempotent — a string with no placeholder
opener resolves to itself under every lookup, with no error. -/
theorem claim_C8 :
    ∀ (lookup : String → Option String) (s : String), hasPH s.data = false →
      resolveString lookup s = .ok s :=
  fun lookup s h => resolveString_noPH lookup s h

/-- C8 witness: an already-resolved literal resolves to itself. -/
theorem claim_C8_witness :
    hasPH "hello".data = false ∧ resolveString (fun _ => none) "hello" = .ok "hello" :=
  ⟨rfl, claim_C8 (fun _ => none) "hello" rfl⟩

/-- C9: environment ingestion strips the GS_ prefix, lower-cases, and turns
underscore runs into dots while keeping hyphens inside one segment:
GS_SPRING_APP_CONFIG-LOCAL_DIR maps to spring.app.config-local.dir and
GS_A_B to a.b; names without the prefix are ignored; every name under the
prefix flattens this way. -/
theorem claim_C9 :
    envKeyToPath "GS_SPRING_APP_CONFIG-LOCAL_DIR" = some "spring.app.config-local.dir" ∧
    envKeyToPath "GS_A_B" = some "a.b" ∧
    envKeyToPath "PATH" = none ∧
    (∀ rest : List Char, envKeyToPath (String.mk ('G' :: 'S' :: '_' :: rest)) =
      some (String.mk (collapseUnders false (rest.map Char.toLower)))) :=
  ⟨rfl, rfl, rfl, fun _ => rfl⟩

/-- C10: a panicking function makes Wait return the zero value together with
the error "panic occurred" and hands the payload to the OnPanic handler when
one is set; a normally returning function makes Wait return exactly its
value and error, with no handler invocation. -/
theorem claim_C10 :
    (∀ (T : Type) (z : T) (ops : Bool) (r : String),
      (GoValue z ops (FnOutcome.panics r)).status.Wait = (z, some "panic occurred") ∧
      (GoValue z ops (FnOutcome.panics r)).onPanicPayload =
        (if ops then some r else none)) ∧
    (∀ (T : Type) (z : T) (ops : Bool) (v : T) (e : Option String),
      (GoValue z ops (FnOutcome.ret v e)).status.Wait = (v, e) ∧
      (GoValue z ops (FnOutcome.ret v e)).onPanicPayload = none) :=
  ⟨fun _ _ _ _ => ⟨rfl, rfl⟩, fun _ _ _ _ _ => ⟨rfl, rfl⟩⟩
